import Mathlib

/-!
Verification development for the Reflex Rush firmware (src/code.c): a shallow
embedding of the game sequencer, touch-capture ISRs, the Bluetooth command
dispatcher, the leaderboard store and the history log, with theorems checking
the design specification's claims against the code.

Machine integers: `unsigned long` on the target is 32 bits; we model its
values as `Nat` together with the explicit wraparound subtraction `usub`
(`a - b` as the C unsigned subtraction) and the modulus `U32MOD = 2^32`.
-/

namespace ReflexRush

/-- MAX_PLAYERS from code.c line 15. -/
def MAX_PLAYERS : Nat := 4

/-- MAX_HISTORY_SIZE from code.c line 22: character budget of the history log. -/
def MAX_HISTORY_SIZE : Nat := 10000

/-- Initial "unset" sentinel for `reactionTimes` (code.c lines 34 and 286): 0xFFFFFFFF. -/
def UNSET : Nat := 4294967295

/-- Modulus of the target's 32-bit `unsigned long`. -/
def U32MOD : Nat := 4294967296

/-- Largest value of the target's 32-bit signed `long`: 2^31 - 1. -/
def LONG_MAX : Nat := 2147483647

/-- C unsigned 32-bit subtraction `a - b` for operands below `U32MOD`. -/
def usub (a b : Nat) : Nat := (a + U32MOD - b) % U32MOD

/-! ## String primitives (Arduino `String` operations used by the dispatcher) -/

/-- Arduino `String::charAt(i)`: the character at index `i`, NUL when out of range. -/
def charAt (s : String) (i : Nat) : Char := s.data.getD i (Char.ofNat 0)

/-- Arduino `String::substring(i)`: the suffix of `s` starting at character index `i`. -/
def strDrop (s : String) (i : Nat) : String := String.mk (s.data.drop i)

/-- Arduino `String::length()`. -/
def strLen (s : String) : Nat := s.data.length

/-- Whether `p` is an initial segment of `c`. -/
def listStartsWith : List Char → List Char → Bool
  | [], _ => true
  | _ :: _, [] => false
  | p :: ps, c :: cs => p == c && listStartsWith ps cs

/-- Arduino `String::startsWith(pat)`. -/
def strStartsWith (s pat : String) : Bool := listStartsWith pat.data s.data

/-- Digit-folding core of `atol`: consume leading decimal digits into `acc`, stop
at the first non-digit. -/
def parseDigits : List Char → Nat → Nat
  | [], acc => acc
  | c :: cs, acc => if c.isDigit then parseDigits cs (10 * acc + (c.toNat - 48)) else acc

/-- Leading-whitespace skip of `atol` (the commands at hand never rely on the
exact C `isspace` set, which also has vertical tab and form feed). -/
def skipSpaces (cs : List Char) : List Char := cs.dropWhile (fun c => c.isWhitespace)

/-- Arduino `String::toInt()` (= `atol`): skip spaces, optional sign, leading
digits; 0 when no digits. 32-bit overflow of `atol` is not modelled; the
dispatcher only compares the result against small bounds. -/
def toIntM (s : String) : Int :=
  match skipSpaces s.data with
  | '-' :: cs => -(parseDigits cs 0 : Int)
  | '+' :: cs => (parseDigits cs 0 : Int)
  | cs => (parseDigits cs 0 : Int)

/-- Decimal digits of `n`, most significant first, with explicit fuel (empty at
`n = 0`; `natRepr` supplies the leading-zero case). -/
def natDigitsAux : Nat → Nat → List Char
  | 0, _ => []
  | fuel + 1, n =>
    if n = 0 then [] else natDigitsAux fuel (n / 10) ++ [Nat.digitChar (n % 10)]

/-- Decimal rendering of a `Nat`, as emitted by Arduino `String(n)`/`print(n)`. -/
def natRepr (n : Nat) : List Char := if n = 0 then ['0'] else natDigitsAux n n

/-- Decimal rendering as a `String`. -/
def natStr (n : Nat) : String := String.mk (natRepr n)

/-- Decimal rendering of an `int`, as emitted by Arduino `String(int)`. -/
def intStr (n : Int) : String :=
  if n < 0 then String.mk ('-' :: natRepr n.natAbs) else natStr n.natAbs

/-! ## Command/Menu Dispatcher (code.c `loop`, lines 226-276)

State touched by the Bluetooth command branches: `numberOfPlayers` (an `int`)
and `playerNames` (the four name slots). Side operations (history send,
leaderboard display, history delete) are modelled separately; here each branch
returns the lines the `loop` dispatcher itself prints on the Bluetooth link. -/

structure MenuState where
  numberOfPlayers : Int
  playerNames : List String
deriving DecidableEq

/-- Bluetooth command dispatcher, one branch per command (code.c lines 226-276).
`SELECT_PLAYERS_` parses `substring(15).toInt()` and validates `1..MAX_PLAYERS`;
`SET_PLAYER_` reads the index character at `charAt(12)`, the name from
`substring(14)`, and validates `0 <= playerIndex < numberOfPlayers` and a
non-empty name; `START` is disabled (sends nothing); the view/delete commands
acknowledge and delegate; anything else is an unknown-command error. -/
def dispatchCommand (command : String) (st : MenuState) : MenuState × List String :=
  if strStartsWith command "SELECT_PLAYERS_" then
    let num : Int := toIntM (strDrop command 15)
    if 1 ≤ num ∧ num ≤ (MAX_PLAYERS : Int) then
      ({ st with numberOfPlayers := num }, ["OK: Players set to " ++ intStr num])
    else
      (st, ["ERROR: Invalid player count"])
  else if strStartsWith command "SET_PLAYER_" then
    let playerIndex : Int := ((charAt command 12).toNat : Int) - (('1').toNat : Int)
    let playerName : String := strDrop command 14
    if 0 ≤ playerIndex ∧ playerIndex < st.numberOfPlayers ∧ 0 < strLen playerName then
      ({ st with playerNames := st.playerNames.set playerIndex.toNat playerName },
        ["OK: Player " ++ intStr (playerIndex + 1) ++ " set to " ++ playerName])
    else
      (st, ["ERROR: Invalid player or name"])
  else if command = "START" then
    (st, [])
  else if command = "VIEW_HISTORY" then
    (st, ["OK: Game history"])
  else if command = "VIEW_LEADERBOARD" then
    (st, ["OK: Leaderboard"])
  else if command = "DELETE_HISTORY" then
    (st, [])
  else
    (st, ["ERROR: Unknown command"])

/-! ## Touch Event Capture (code.c ISRs, lines 56-99) -/

/-- Per-channel ISR-visible state: `reactionTimes[i]`, `touchDetected[i]`, and
the ISR's static `lastInterrupt`. -/
structure ISRState where
  reactionTime : Nat
  touched : Bool
  lastInterrupt : Nat
deriving DecidableEq

/-- Body of `touchISR1..4` (code.c lines 56-66) at time `now`: if the channel
is not already touched and the debounce window of 50 ms has passed since the
last accepted edge, record `now` and latch `touched`; otherwise do nothing. -/
def touchISR (s : ISRState) (now : Nat) : ISRState :=
  if s.touched = false ∧ 50 < usub now s.lastInterrupt then
    { reactionTime := now, touched := true, lastInterrupt := now }
  else s

/-! ## Game Sequencer round (code.c `startGame`, lines 282-353)

A round is modelled per channel. The channel starts from the reset state
(lines 285-291). During Red and Yellow the busy-wait loops poll continuously
(lines 300-309 and 317-327), so a touch the ISR records during one of those
phases is observed by the poll before the phase ends and its recorded time is
replaced with the jumpstart penalty 0; during Green the loop only waits (lines
338-340) and a touch keeps its ISR-recorded timestamp. The input says in which
phase, if any, this player's ISR accepted its (single) touch. -/

inductive Phase | red | yellow | green
deriving DecidableEq

structure TouchEvent where
  phase : Phase
  time : Nat

/-- Sequencer-visible channel state: `reactionTimes[i]` and `touchDetected[i]`. -/
structure Channel where
  reactionTime : Nat
  touched : Bool
deriving DecidableEq

/-- Round-start reset (code.c lines 285-291). -/
def resetChannel : Channel := { reactionTime := UNSET, touched := false }

/-- Effect of an accepted ISR edge at time `now` on the sequencer-visible
fields (code.c lines 58-60): first touch records the time and latches the flag. -/
def recordTouch (c : Channel) (now : Nat) : Channel :=
  if c.touched then c else { reactionTime := now, touched := true }

/-- Apply the channel's ISR if it fires during this phase. -/
def stepISR (c : Channel) : Option Nat → Channel
  | none => c
  | some t => recordTouch c t

/-- One observation of the Red/Yellow polling loop (code.c lines 301-308):
a touched channel has its recorded time replaced by the jumpstart penalty 0. -/
def jumpstartScan (c : Channel) : Channel :=
  if c.touched then { c with reactionTime := 0 } else c

/-- Time of the player's touch if it falls in phase `p`. -/
def evTime (ev : Option TouchEvent) (p : Phase) : Option Nat :=
  match ev with
  | none => none
  | some e => if e.phase = p then some e.time else none

/-- Final channel state at Scoring: reset, Red (ISR then poll), Yellow (ISR
then poll), Green (ISR only; the Green loop records nothing, lines 338-340). -/
def runRoundChannel (ev : Option TouchEvent) : Channel :=
  let c1 := jumpstartScan (stepISR resetChannel (evTime ev Phase.red))
  let c2 := jumpstartScan (stepISR c1 (evTime ev Phase.yellow))
  stepISR c2 (evTime ev Phase.green)

/-- Per-player outcome in the round result. -/
inductive Outcome
  | jumpstart
  | reactionTime (ms : Nat)
  | noResponse
deriving DecidableEq

/-- Scoring classification (code.c lines 345-352): `reactionTimes[i] == 0` is a
jumpstart, else `reactionTimes[i] > greenStartTime` is a valid reaction of
`reactionTimes[i] - greenStartTime` ms, else no response. -/
def classify (rt gs : Nat) : Outcome :=
  if rt = 0 then Outcome.jumpstart
  else if gs < rt then Outcome.reactionTime (usub rt gs)
  else Outcome.noResponse

/-- Outcome of a whole round for one player with green start time `gs`. -/
def scoreRound (ev : Option TouchEvent) (gs : Nat) : Outcome :=
  classify (runRoundChannel ev).reactionTime gs

/-- Formatted per-player line of the round result (code.c lines 345-352). -/
def resultLine (pname : String) (rt gs : Nat) : String :=
  if rt = 0 then pname ++ ": JS (Jumpstart)\n"
  else if gs < rt then pname ++ ": " ++ natStr (usub rt gs) ++ " ms\n"
  else pname ++ ": No response\n"

/-! ## Leaderboard Store (code.c lines 42-46, 521-556, 580-596) -/

structure Player where
  name : String
  bestReactionTime : Nat
deriving DecidableEq

/-- One iteration of `updateLeaderboard` (code.c lines 582-595) for a player
with final recorded time `rt`, green start `gs` and display name `pname`:
a valid reaction (`rt > gs` and `rt != 0xFFFFFFFF`) whose duration beats the
recorded best (or the best is unset, 0) overwrites the slot. -/
def updateSlot (rt gs : Nat) (pname : String) (p : Player) : Player :=
  if gs < rt ∧ rt ≠ UNSET then
    if p.bestReactionTime = 0 ∨ usub rt gs < p.bestReactionTime then
      { name := pname, bestReactionTime := usub rt gs }
    else p
  else p

/-- Serialized leaderboard blob, one `name,time\r\n` line per slot
(`saveLeaderboardToSD`, code.c lines 545-549; `println` emits CR LF). -/
def saveLines : List Player → List Char
  | [] => []
  | p :: ps => p.name.data ++ ',' :: (natRepr p.bestReactionTime ++ '\r' :: '\n' :: saveLines ps)

/-- Arduino `Stream::readStringUntil(t)` on an in-memory blob: the characters
before the first `t` (terminator consumed, not returned) and the rest; the
whole input when `t` is absent. -/
def readUntil : List Char → Char → List Char × List Char
  | [], _ => ([], [])
  | c :: cs, t =>
    if c = t then ([], cs)
    else ((readUntil cs t).1.cons c, (readUntil cs t).2)

/-- `String::toInt()` of a time field followed by the assignment into the
32-bit `unsigned long` `bestReactionTime` (code.c line 531). On the target
`toInt` is newlib `atol`/`strtol`, which clamps an out-of-range decimal to
`LONG_MAX` (positive) or `LONG_MIN = -2^31` (negative); the resulting `long`
is then converted to `unsigned long` modulo 2^32. -/
def parseTimeU32 (cs : List Char) : Nat :=
  match skipSpaces cs with
  | [] => 0
  | c :: rest =>
    if c = '-' then (U32MOD - min (parseDigits rest 0) 2147483648) % U32MOD
    else if c = '+' then min (parseDigits rest 0) LONG_MAX
    else min (parseDigits (c :: rest) 0) LONG_MAX

/-- `loadLeaderboardFromSD` parse loop (code.c lines 528-533): while characters
remain and fewer than `MAX_PLAYERS` entries are read, take the name up to a
comma and the time up to a newline. -/
def loadEntries : Nat → List Char → List Player
  | 0, _ => []
  | _ + 1, [] => []
  | k + 1, c :: cs =>
    { name := String.mk (readUntil (c :: cs) ',').1,
      bestReactionTime := parseTimeU32 (readUntil (readUntil (c :: cs) ',').2 '\n').1 }
      :: loadEntries k (readUntil (readUntil (c :: cs) ',').2 '\n').2

/-! ## History Log and SD-card space check (code.c lines 359-370, 508-518, 599-619) -/

/-- History append with the hard truncation policy (code.c lines 360-368). -/
def appendHistory (hist res : String) : String :=
  if strLen hist + strLen res < MAX_HISTORY_SIZE then hist ++ res else res

/-- SD-card contents relevant to the history path: the history blob, if the
file exists, plus the total size of everything else in the root directory. -/
structure SDState where
  historyFile : Option String
  otherBytes : Nat
deriving DecidableEq

def fileSize : Option String → Nat
  | some h => h.data.length
  | none => 0

/-- Used space the `checkSDCardSpace` directory walk sums up (code.c lines 600-608). -/
def usedSpace (sd : SDState) : Nat := fileSize sd.historyFile + sd.otherBytes

/-- `deleteHistory` (code.c lines 508-518): when the file exists, remove it and
clear the in-memory history; otherwise leave both alone. Returns the new
in-memory history and storage. -/
def deleteHistoryOp (hist : String) (sd : SDState) : String × SDState :=
  match sd.historyFile with
  | some _ => ("", { sd with historyFile := none })
  | none => (hist, sd)

/-- `checkSDCardSpace` (code.c lines 599-619): when used space exceeds 1 MB,
delete the history and clear it in memory; return `true` on both paths.
Returns the flag, the in-memory history and the storage. -/
def checkSDCardSpace (hist : String) (sd : SDState) : Bool × String × SDState :=
  if 1024 * 1024 < usedSpace sd then
    (true, "", (deleteHistoryOp hist sd).2)
  else
    (true, hist, sd)

/-- `saveHistoryToSD` (code.c lines 495-505): write the in-memory history blob. -/
def saveHistoryToSD (hist : String) (sd : SDState) : SDState :=
  { sd with historyFile := some hist }

/-- Post-round history persistence (code.c lines 359-370): space check, then
append under the budget rule, then save. -/
def persistRound (res hist : String) (sd : SDState) : String × SDState :=
  let chk := checkSDCardSpace hist sd
  if chk.1 then
    let h2 := appendHistory chk.2.1 res
    (h2, saveHistoryToSD h2 chk.2.2)
  else
    (chk.2.1, chk.2.2)

/-! ## Helper lemmas -/

theorem empty_append_str (s : String) : "" ++ s = s := rfl

theorem appendHistory_empty (r : String) : appendHistory "" r = r := by
  unfold appendHistory
  split
  · exact empty_append_str r
  · rfl

/-! ## C1: an untouched channel at Scoring -/

/-- C1: the claim fails on the code, which is a slip against its own intent.
A channel never touched keeps the sentinel `0xFFFFFFFF`, which the code's own
comments call "indicating no touch" and which `updateLeaderboard` explicitly
excludes; yet the Scoring branch `reactionTimes[i] > greenStartTime` accepts it
(the sentinel exceeds any realistic `greenStartTime`, here 1000), so the
formatted line reads `4294966295 ms` instead of `No response`. -/
theorem untouched_channel_scored_as_time :
    (runRoundChannel none).reactionTime = UNSET
    ∧ scoreRound none 1000 = Outcome.reactionTime 4294966295
    ∧ scoreRound none 1000 ≠ Outcome.noResponse
    ∧ resultLine "Player 1" UNSET 1000 = "Player 1: 4294966295 ms\n" := by
  refine ⟨rfl, by decide, by decide, by decide⟩

/-! ## C2: the SET_PLAYER command -/

/-- C2: the claim fails on the code. The grammar `SET_PLAYER_<i>_<name>` puts
the index digit at character offset 11 and the name at offset 13, but the code
reads `charAt(12)` and `substring(14)`; for `SET_PLAYER_2_Alice` with
`numberOfPlayers = 2` it computes `playerIndex = '_' - '1' = 46` and name
`"lice"`, fails validation, changes nothing, and replies with the error line
instead of `OK: Player 2 set to Alice`. -/
theorem set_player_2_alice_bug :
    charAt "SET_PLAYER_2_Alice" 12 = '_'
    ∧ strDrop "SET_PLAYER_2_Alice" 14 = "lice"
    ∧ dispatchCommand "SET_PLAYER_2_Alice"
        { numberOfPlayers := 2, playerNames := ["Player 1", "Player 2", "Player 3", "Player 4"] }
      = ({ numberOfPlayers := 2, playerNames := ["Player 1", "Player 2", "Player 3", "Player 4"] },
         ["ERROR: Invalid player or name"]) := by
  refine ⟨by decide, by decide, by decide⟩

/-! ## C3: Red/Yellow touches are jumpstarts -/

/-- C3: a touch recorded during the Red or Yellow phase is observed by the
phase's polling loop, its recorded time is forced to the penalty 0, and the
Scoring classification (which tests the jumpstart sentinel first, before the
valid-reaction and no-response branches) therefore yields Jumpstart for every
timestamp value and every green start time. -/
theorem red_yellow_touch_is_jumpstart (e : TouchEvent) (gs : Nat)
    (h : e.phase = Phase.red ∨ e.phase = Phase.yellow) :
    scoreRound (some e) gs = Outcome.jumpstart := by
  obtain ⟨p, t⟩ := e
  rcases h with h | h <;> cases h <;>
    simp [scoreRound, runRoundChannel, stepISR, recordTouch, jumpstartScan, evTime,
      resetChannel, classify]

/-- Witness for C3 at a concrete input: a Yellow-phase touch at 1234 ms with
green start 5000 ms scores as Jumpstart. -/
theorem red_yellow_touch_is_jumpstart_witness :
    ((⟨Phase.yellow, 1234⟩ : TouchEvent).phase = Phase.red
      ∨ (⟨Phase.yellow, 1234⟩ : TouchEvent).phase = Phase.yellow)
    ∧ scoreRound (some ⟨Phase.yellow, 1234⟩) 5000 = Outcome.jumpstart :=
  ⟨Or.inr rfl, red_yellow_touch_is_jumpstart ⟨Phase.yellow, 1234⟩ 5000 (Or.inr rfl)⟩

/-! ## C6: history append truncation policy -/

/-- C6: appending a result to the history concatenates when the combined
length stays under the `MAX_HISTORY_SIZE` budget and otherwise discards all
prior history, keeping exactly the new result. -/
theorem history_append_policy (hist res : String) :
    (strLen hist + strLen res < MAX_HISTORY_SIZE → appendHistory hist res = hist ++ res)
    ∧ (MAX_HISTORY_SIZE ≤ strLen hist + strLen res → appendHistory hist res = res) := by
  constructor
  · intro h
    unfold appendHistory
    rw [if_pos h]
  · intro h
    unfold appendHistory
    rw [if_neg (by omega)]

/-- Witness for C6 at a concrete input: "abc" plus "def" stays under the
budget and concatenates. -/
theorem history_append_policy_witness :
    strLen "abc" + strLen "def" < MAX_HISTORY_SIZE
    ∧ appendHistory "abc" "def" = "abc" ++ "def" :=
  ⟨by decide, (history_append_policy "abc" "def").1 (by decide)⟩

/-! ## C8: Green-phase reactions -/

/-- C8: a touch recorded during Green at time `t` with `t > greenStartTime`
(and `t` not the jumpstart sentinel) classifies as a reaction of
`t - greenStartTime` ms, and the unsigned 32-bit subtraction does not wrap:
it equals the exact non-negative difference. -/
theorem green_touch_reaction_time (t gs : Nat) (h0 : t ≠ 0) (hgs : gs < t)
    (ht : t < U32MOD) :
    scoreRound (some ⟨Phase.green, t⟩) gs = Outcome.reactionTime (t - gs)
    ∧ usub t gs = t - gs := by
  have ht' : t < 4294967296 := ht
  have hu : usub t gs = t - gs := by
    unfold usub U32MOD
    omega
  refine ⟨?_, hu⟩
  simp [scoreRound, runRoundChannel, stepISR, recordTouch, jumpstartScan, evTime,
    resetChannel, classify, h0, hgs, hu]

/-- Witness for C8 at a concrete input: a touch at 1300 ms with green start
1000 ms scores as a 300 ms reaction. -/
theorem green_touch_reaction_time_witness :
    (1300 : Nat) ≠ 0 ∧ (1000 : Nat) < 1300 ∧ (1300 : Nat) < U32MOD
    ∧ scoreRound (some ⟨Phase.green, 1300⟩) 1000 = Outcome.reactionTime 300
    ∧ usub 1300 1000 = 300 := by
  have h := green_touch_reaction_time 1300 1000 (by decide) (by decide) (by decide)
  exact ⟨by decide, by decide, by decide, h.1, h.2⟩

/-! ## C4: SELECT_PLAYERS validation -/

/-- C4: for the integer `n` the dispatcher parses out of a
`SELECT_PLAYERS_<n>` command, a value in `[1, MAX_PLAYERS]` sets
`numberOfPlayers` to `n` with the OK acknowledgement, and any other value
leaves the state unchanged and replies with the invalid-player-count error. -/
theorem select_players_validated (st : MenuState) (cmd : String)
    (h : strStartsWith cmd "SELECT_PLAYERS_" = true) :
    ((1 ≤ toIntM (strDrop cmd 15) ∧ toIntM (strDrop cmd 15) ≤ (MAX_PLAYERS : Int)) →
      (dispatchCommand cmd st).1.numberOfPlayers = toIntM (strDrop cmd 15)
      ∧ (dispatchCommand cmd st).2
          = ["OK: Players set to " ++ intStr (toIntM (strDrop cmd 15))])
    ∧ (¬(1 ≤ toIntM (strDrop cmd 15) ∧ toIntM (strDrop cmd 15) ≤ (MAX_PLAYERS : Int)) →
      (dispatchCommand cmd st).1 = st
      ∧ (dispatchCommand cmd st).2 = ["ERROR: Invalid player count"]) := by
  constructor
  · intro hn
    simp [dispatchCommand, h, hn]
  · intro hn
    simp [dispatchCommand, h, hn]

/-- Witness for C4 at a concrete input: `SELECT_PLAYERS_3` parses to 3, which
is valid, sets the count to 3 and acknowledges. -/
theorem select_players_validated_witness :
    strStartsWith "SELECT_PLAYERS_3" "SELECT_PLAYERS_" = true
    ∧ (1 ≤ toIntM (strDrop "SELECT_PLAYERS_3" 15)
        ∧ toIntM (strDrop "SELECT_PLAYERS_3" 15) ≤ (MAX_PLAYERS : Int))
    ∧ (dispatchCommand "SELECT_PLAYERS_3"
        { numberOfPlayers := 1, playerNames := ["Player 1", "Player 2", "Player 3", "Player 4"] }).1.numberOfPlayers
        = toIntM (strDrop "SELECT_PLAYERS_3" 15)
    ∧ (dispatchCommand "SELECT_PLAYERS_3"
        { numberOfPlayers := 1, playerNames := ["Player 1", "Player 2", "Player 3", "Player 4"] }).2
        = ["OK: Players set to " ++ intStr (toIntM (strDrop "SELECT_PLAYERS_3" 15))] := by
  have h := (select_players_validated
    { numberOfPlayers := 1, playerNames := ["Player 1", "Player 2", "Player 3", "Player 4"] }
    "SELECT_PLAYERS_3" (by decide)).1 (by decide)
  exact ⟨by decide, by decide, h.1, h.2⟩

/-! ## C5: leaderboard best-time guard -/

/-- C5: a leaderboard slot's `bestReactionTime` changes only when the player
has a valid reaction (`rt > greenStartTime`, not the unset sentinel) whose
duration is strictly below the recorded best or when the best is still unset
(0) — so across updates it only ever decreases or initializes from 0 — and a
Jumpstart or NoResponse outcome leaves the slot entirely unchanged. -/
theorem leaderboard_best_guard (rt gs : Nat) (pname : String) (p : Player) :
    ((updateSlot rt gs pname p).bestReactionTime ≠ p.bestReactionTime →
      gs < rt ∧ rt ≠ UNSET
      ∧ (p.bestReactionTime = 0
          ∨ (updateSlot rt gs pname p).bestReactionTime < p.bestReactionTime)
      ∧ (updateSlot rt gs pname p).bestReactionTime = usub rt gs)
    ∧ (classify rt gs = Outcome.jumpstart → updateSlot rt gs pname p = p)
    ∧ (classify rt gs = Outcome.noResponse → updateSlot rt gs pname p = p) := by
  refine ⟨?_, ?_, ?_⟩
  · intro hch
    by_cases h1 : gs < rt ∧ rt ≠ UNSET
    · by_cases h2 : p.bestReactionTime = 0 ∨ usub rt gs < p.bestReactionTime
      · have heq : updateSlot rt gs pname p = ⟨pname, usub rt gs⟩ := by
          simp only [updateSlot, if_pos h1, if_pos h2]
        rw [heq]
        exact ⟨h1.1, h1.2, by simpa using h2, rfl⟩
      · simp only [updateSlot, if_pos h1, if_neg h2] at hch
        exact absurd rfl hch
    · simp only [updateSlot, if_neg h1] at hch
      exact absurd rfl hch
  · intro hcl
    by_cases h0 : rt = 0
    · subst h0
      simp [updateSlot]
    · exfalso
      simp only [classify, if_neg h0] at hcl
      split at hcl <;> simp_all
  · intro hcl
    by_cases h0 : rt = 0
    · exfalso
      simp [classify, h0] at hcl
    · by_cases hg : gs < rt
      · exfalso
        simp [classify, h0, hg] at hcl
      · simp [updateSlot, hg]

/-- Witness for C5 at a concrete input: a 500 ms reaction (touch at 1500,
green start 1000) beats a 700 ms best, so the slot changes, and the change is
a strict decrease onto the new duration. -/
theorem leaderboard_best_guard_witness :
    (1000 : Nat) < 1500 ∧ (1500 : Nat) ≠ UNSET
    ∧ ((⟨"B", 700⟩ : Player).bestReactionTime = 0
        ∨ (updateSlot 1500 1000 "A" ⟨"B", 700⟩).bestReactionTime
            < (⟨"B", 700⟩ : Player).bestReactionTime)
    ∧ (updateSlot 1500 1000 "A" ⟨"B", 700⟩).bestReactionTime = usub 1500 1000 :=
  (leaderboard_best_guard 1500 1000 "A" ⟨"B", 700⟩).1 (by decide)

/-! ## C9: single-shot touch capture -/

/-- C9 counterexample: the claim that a recorded `touchTimestamp` is never
overwritten until the next round's reset is false. A touch the ISR records at
500 ms during the Red phase (first conjuncts: the edge really records 500 and
latches the flag) ends the round with `reactionTimes` equal to 0, because the
Red/Yellow polling loop overwrites the timestamp with the jumpstart penalty. -/
theorem touch_timestamp_overwritten :
    (recordTouch resetChannel 500).reactionTime = 500
    ∧ (recordTouch resetChannel 500).touched = true
    ∧ (runRoundChannel (some ⟨Phase.red, 500⟩)).reactionTime = 0 := by
  refine ⟨by decide, by decide, by decide⟩

/-- C9 as amended: once an ISR has latched `touched`, every later edge on the
channel within the round is a no-op — the flag is never set twice and no edge
ever overwrites the recorded timestamp (only the sequencer's jumpstart penalty
can replace it before the next round's reset). -/
theorem touchISR_single_shot (s : ISRState) (edges : List Nat)
    (h : s.touched = true) :
    List.foldl touchISR s edges = s := by
  induction edges with
  | nil => rfl
  | cons e es ih =>
    have hstep : touchISR s e = s := by
      unfold touchISR
      rw [if_neg]
      simp [h]
    rw [List.foldl_cons, hstep]
    exact ih

/-- Witness for C9's amended theorem at a concrete input: a channel latched at
700 ms is untouched by three further edges. -/
theorem touchISR_single_shot_witness :
    (⟨700, true, 700⟩ : ISRState).touched = true
    ∧ List.foldl touchISR ⟨700, true, 700⟩ [710, 800, 900] = ⟨700, true, 700⟩ :=
  ⟨rfl, touchISR_single_shot ⟨700, true, 700⟩ [710, 800, 900] rfl⟩

/-! ## C10: the SD space check and the post-round history path -/

/-- C10: `checkSDCardSpace` returns `true` from both of its branches, so the
append-and-save path runs after every completed round (the saved blob always
equals the new in-memory history); and when the summed file sizes exceed 1 MB
the history is first deleted in memory and on storage, after which the round's
result alone becomes the new history and is saved. -/
theorem sd_space_check_always_true (res hist : String) (sd : SDState) :
    (checkSDCardSpace hist sd).1 = true
    ∧ (persistRound res hist sd).2.historyFile = some (persistRound res hist sd).1
    ∧ (1024 * 1024 < usedSpace sd →
        (checkSDCardSpace hist sd).2.1 = ""
        ∧ (checkSDCardSpace hist sd).2.2.historyFile = none
        ∧ (persistRound res hist sd).1 = res
        ∧ (persistRound res hist sd).2.historyFile = some res) := by
  by_cases hbig : 1024 * 1024 < usedSpace sd
  · have hdel : (deleteHistoryOp hist sd).2.historyFile = none := by
      unfold deleteHistoryOp
      cases hsd : sd.historyFile <;> simp [hsd]
    refine ⟨?_, ?_, ?_⟩
    · simp [checkSDCardSpace, hbig]
    · simp [persistRound, checkSDCardSpace, hbig, saveHistoryToSD]
    · intro _
      refine ⟨by simp [checkSDCardSpace, hbig], by simp [checkSDCardSpace, hbig, hdel], ?_, ?_⟩
      · simp [persistRound, checkSDCardSpace, hbig, appendHistory_empty]
      · simp [persistRound, checkSDCardSpace, hbig, saveHistoryToSD, appendHistory_empty]
  · refine ⟨?_, ?_, fun hc => absurd hc hbig⟩
    · simp [checkSDCardSpace, hbig]
    · simp [persistRound, checkSDCardSpace, hbig, saveHistoryToSD]

/-- Witness for C10 at a concrete input: with a 1-byte history file and
2000000 bytes of other files, the check reports `true`, the history is wiped
in memory and on storage, and the round result "R" becomes the saved history. -/
theorem sd_space_check_always_true_witness :
    (checkSDCardSpace "H" ⟨some "H", 2000000⟩).1 = true
    ∧ 1024 * 1024 < usedSpace ⟨some "H", 2000000⟩
    ∧ (checkSDCardSpace "H" ⟨some "H", 2000000⟩).2.1 = ""
    ∧ (checkSDCardSpace "H" ⟨some "H", 2000000⟩).2.2.historyFile = none
    ∧ (persistRound "R" "H" ⟨some "H", 2000000⟩).1 = "R"
    ∧ (persistRound "R" "H" ⟨some "H", 2000000⟩).2.historyFile = some "R" := by
  have h := sd_space_check_always_true "R" "H" ⟨some "H", 2000000⟩
  have hc := h.2.2 (by decide)
  exact ⟨h.1, by decide, hc.1, hc.2.1, hc.2.2.1, hc.2.2.2⟩

/-! ## C7: leaderboard save/load round trip -/

theorem digitChar_isDigit : ∀ m, m < 10 → (Nat.digitChar m).isDigit = true := by decide

theorem digitChar_ne_comma : ∀ m, m < 10 → Nat.digitChar m ≠ ',' := by decide

theorem digitChar_ne_newline : ∀ m, m < 10 → Nat.digitChar m ≠ '\n' := by decide

theorem digitChar_ne_minus : ∀ m, m < 10 → Nat.digitChar m ≠ '-' := by decide

theorem digitChar_ne_plus : ∀ m, m < 10 → Nat.digitChar m ≠ '+' := by decide

theorem digitChar_not_ws : ∀ m, m < 10 → (Nat.digitChar m).isWhitespace = false := by decide

theorem digitChar_toNat : ∀ m, m < 10 → (Nat.digitChar m).toNat = 48 + m := by decide

theorem mem_natDigitsAux :
    ∀ fuel n c, c ∈ natDigitsAux fuel n → ∃ m, m < 10 ∧ c = Nat.digitChar m := by
  intro fuel
  induction fuel with
  | zero =>
    intro n c hc
    simp [natDigitsAux] at hc
  | succ fuel ih =>
    intro n c hc
    by_cases h0 : n = 0
    · subst h0
      simp [natDigitsAux] at hc
    · simp only [natDigitsAux, if_neg h0] at hc
      rcases List.mem_append.mp hc with hc | hc
      · exact ih _ _ hc
      · simp at hc
        exact ⟨n % 10, Nat.mod_lt _ (by norm_num), hc⟩

theorem mem_natRepr (n : Nat) (c : Char) (hc : c ∈ natRepr n) :
    ∃ m, m < 10 ∧ c = Nat.digitChar m := by
  unfold natRepr at hc
  by_cases h0 : n = 0
  · rw [if_pos h0] at hc
    simp at hc
    exact ⟨0, by norm_num, by rw [hc]; decide⟩
  · rw [if_neg h0] at hc
    exact mem_natDigitsAux n n c hc

theorem natRepr_ne_nil (n : Nat) : natRepr n ≠ [] := by
  unfold natRepr
  by_cases h0 : n = 0
  · rw [if_pos h0]
    simp
  · rw [if_neg h0]
    obtain ⟨k, rfl⟩ : ∃ k, n = k + 1 := ⟨n - 1, by omega⟩
    simp [natDigitsAux, h0]

theorem readUntil_append (xs rest : List Char) (t : Char) (h : ∀ c ∈ xs, c ≠ t) :
    readUntil (xs ++ t :: rest) t = (xs, rest) := by
  induction xs with
  | nil => simp [readUntil]
  | cons x xs ih =>
    have hx : x ≠ t := h x (List.mem_cons_self x xs)
    have hxs : ∀ c ∈ xs, c ≠ t := fun c hc => h c (List.mem_cons_of_mem x hc)
    simp only [List.cons_append, readUntil, if_neg hx, List.append_eq]
    rw [ih hxs]

theorem parseDigits_natDigitsAux :
    ∀ fuel n acc rest, n ≤ fuel →
      parseDigits (natDigitsAux fuel n ++ rest) acc
        = parseDigits rest (acc * 10 ^ (natDigitsAux fuel n).length + n) := by
  intro fuel
  induction fuel with
  | zero =>
    intro n acc rest hn
    have h0 : n = 0 := Nat.le_zero.mp hn
    subst h0
    simp [natDigitsAux]
  | succ fuel ih =>
    intro n acc rest hn
    by_cases h0 : n = 0
    · subst h0
      simp [natDigitsAux]
    · have hstep : natDigitsAux (fuel + 1) n
          = natDigitsAux fuel (n / 10) ++ [Nat.digitChar (n % 10)] := by
        simp [natDigitsAux, h0]
      rw [hstep, List.append_assoc, List.singleton_append,
        ih (n / 10) acc (Nat.digitChar (n % 10) :: rest)
          (by
            have := Nat.div_lt_self (Nat.pos_of_ne_zero h0) (by norm_num : 1 < 10)
            omega)]
      have hm : n % 10 < 10 := Nat.mod_lt _ (by norm_num)
      have hd : (Nat.digitChar (n % 10)).isDigit = true := digitChar_isDigit _ hm
      have htn : (Nat.digitChar (n % 10)).toNat = 48 + n % 10 := digitChar_toNat _ hm
      rw [parseDigits, if_pos hd, htn, List.length_append, List.length_singleton,
        pow_succ]
      have h48 : 48 + n % 10 - 48 = n % 10 := by omega
      rw [h48]
      have hdm : n / 10 * 10 + n % 10 = n := by omega
      congr 1
      calc 10 * (acc * 10 ^ (natDigitsAux fuel (n / 10)).length + n / 10) + n % 10
          = acc * (10 ^ (natDigitsAux fuel (n / 10)).length * 10)
            + (n / 10 * 10 + n % 10) := by ring
        _ = acc * (10 ^ (natDigitsAux fuel (n / 10)).length * 10) + n := by rw [hdm]

theorem parseDigits_natRepr (n : Nat) (rest : List Char) :
    parseDigits (natRepr n ++ rest) 0 = parseDigits rest n := by
  unfold natRepr
  by_cases h0 : n = 0
  · subst h0
    have hd : ('0' : Char).isDigit = true := by decide
    have ht : ('0' : Char).toNat = 48 := by decide
    simp [parseDigits, hd, ht]
  · rw [if_neg h0, parseDigits_natDigitsAux n n 0 rest le_rfl]
    simp

theorem parseTimeU32_eq (cs : List Char) (c : Char) (rest : List Char)
    (hs : skipSpaces cs = c :: rest) :
    parseTimeU32 cs
      = if c = '-' then (U32MOD - min (parseDigits rest 0) 2147483648) % U32MOD
        else if c = '+' then min (parseDigits rest 0) LONG_MAX
        else min (parseDigits (c :: rest) 0) LONG_MAX := by
  unfold parseTimeU32
  rw [hs]

theorem parseTimeU32_natRepr (n : Nat) (hn : n ≤ LONG_MAX) :
    parseTimeU32 (natRepr n ++ ['\x0d']) = n := by
  obtain ⟨c, tl, hrep⟩ := List.exists_cons_of_ne_nil (natRepr_ne_nil n)
  · have hcmem : c ∈ natRepr n := by
      rw [hrep]
      exact List.mem_cons_self c tl
    obtain ⟨m, hm, hc⟩ := mem_natRepr n c hcmem
    have hws : c.isWhitespace = false := by rw [hc]; exact digitChar_not_ws m hm
    have hminus : c ≠ '-' := by rw [hc]; exact digitChar_ne_minus m hm
    have hplus : c ≠ '+' := by rw [hc]; exact digitChar_ne_plus m hm
    have hs : skipSpaces (natRepr n ++ ['\x0d']) = c :: (tl ++ ['\x0d']) := by
      rw [hrep, List.cons_append]
      simp [skipSpaces, List.dropWhile_cons, hws]
    rw [parseTimeU32_eq _ _ _ hs, if_neg hminus, if_neg hplus, ← List.cons_append,
      ← hrep, parseDigits_natRepr]
    have hr : ('\x0d' : Char).isDigit = false := by decide
    simp [parseDigits, hr, Nat.min_eq_left hn]

theorem loadEntries_succ (k : Nat) (cs : List Char) (h : cs ≠ []) :
    loadEntries (k + 1) cs
      = { name := String.mk (readUntil cs ',').1,
          bestReactionTime := parseTimeU32 (readUntil (readUntil cs ',').2 '\n').1 }
          :: loadEntries k (readUntil (readUntil cs ',').2 '\n').2 := by
  cases cs with
  | nil => exact absurd rfl h
  | cons c cs => rfl

theorem roundtrip_aux :
    ∀ lb : List Player,
      (∀ p ∈ lb, (∀ c ∈ p.name.data, c ≠ ',') ∧ p.bestReactionTime ≤ LONG_MAX) →
      loadEntries lb.length (saveLines lb) = lb := by
  intro lb
  induction lb with
  | nil => intro _; rfl
  | cons p ps ih =>
    intro h
    have hp := h p (List.mem_cons_self p ps)
    have hps := fun q hq => h q (List.mem_cons_of_mem p hq)
    have hsave : saveLines (p :: ps)
        = p.name.data
            ++ ',' :: (natRepr p.bestReactionTime ++ '\x0d' :: '\n' :: saveLines ps) := rfl
    have h1 : readUntil (saveLines (p :: ps)) ','
        = (p.name.data, natRepr p.bestReactionTime ++ '\x0d' :: '\n' :: saveLines ps) := by
      rw [hsave]
      exact readUntil_append _ _ _ hp.1
    have h2 : readUntil (natRepr p.bestReactionTime ++ '\x0d' :: '\n' :: saveLines ps) '\n'
        = (natRepr p.bestReactionTime ++ ['\x0d'], saveLines ps) := by
      have hassoc : natRepr p.bestReactionTime ++ '\x0d' :: '\n' :: saveLines ps
          = (natRepr p.bestReactionTime ++ ['\x0d']) ++ '\n' :: saveLines ps := by
        simp
      rw [hassoc]
      apply readUntil_append
      intro c hc
      rcases List.mem_append.mp hc with hc | hc
      · obtain ⟨m, hm, hcm⟩ := mem_natRepr _ _ hc
        rw [hcm]
        exact digitChar_ne_newline m hm
      · simp at hc
        rw [hc]
        decide
    have hnonnil : saveLines (p :: ps) ≠ [] := by
      rw [hsave]
      simp
    rw [List.length_cons, loadEntries_succ _ _ hnonnil, h1]
    simp only [h2]
    rw [parseTimeU32_natRepr _ hp.2, ih hps]

/-- C7 counterexample: the round trip fails as universally stated, in two
ways. A name containing a comma derails the comma-delimited parse: saving the
slots `("Ali,ce", 300), ("", 0), ("", 0), ("", 0)` and loading them back
yields `("Ali", 0)` in the first slot, not `("Ali,ce", 300)`. And a best time
above `LONG_MAX` is corrupted by `toInt`'s `strtol` clamp: a saved best of
3000000000 reloads as 2147483647. -/
theorem leaderboard_roundtrip_comma_counterexample :
    loadEntries MAX_PLAYERS (saveLines [⟨"Ali,ce", 300⟩, ⟨"", 0⟩, ⟨"", 0⟩, ⟨"", 0⟩])
        ≠ [⟨"Ali,ce", 300⟩, ⟨"", 0⟩, ⟨"", 0⟩, ⟨"", 0⟩]
    ∧ loadEntries MAX_PLAYERS (saveLines [⟨"Ali,ce", 300⟩, ⟨"", 0⟩, ⟨"", 0⟩, ⟨"", 0⟩])
        = [⟨"Ali", 0⟩, ⟨"", 0⟩, ⟨"", 0⟩, ⟨"", 0⟩]
    ∧ loadEntries MAX_PLAYERS (saveLines [⟨"A", 3000000000⟩, ⟨"", 0⟩, ⟨"", 0⟩, ⟨"", 0⟩])
        = [⟨"A", 2147483647⟩, ⟨"", 0⟩, ⟨"", 0⟩, ⟨"", 0⟩] := by
  refine ⟨by decide, by decide, by decide⟩

/-- C7 as amended: for every leaderboard state of `MAX_PLAYERS` slots whose
names contain no comma (the field separator of the CSV-like blob) and whose
best times do not exceed `LONG_MAX` (the range `toInt`'s `strtol` reproduces
exactly rather than clamping), `save()` followed by `load()` reproduces every
name/bestTime pair. -/
theorem leaderboard_save_load_roundtrip (lb : List Player)
    (hlen : lb.length = MAX_PLAYERS)
    (h : ∀ p ∈ lb, (∀ c ∈ p.name.data, c ≠ ',') ∧ p.bestReactionTime ≤ LONG_MAX) :
    loadEntries MAX_PLAYERS (saveLines lb) = lb := by
  rw [← hlen]
  exact roundtrip_aux lb h

/-- Witness for C7's amended theorem at a concrete input: four comma-free
slots survive the save/load round trip unchanged. -/
theorem leaderboard_save_load_roundtrip_witness :
    ([⟨"Alice", 300⟩, ⟨"", 0⟩, ⟨"", 0⟩, ⟨"", 0⟩] : List Player).length = MAX_PLAYERS
    ∧ (∀ p ∈ ([⟨"Alice", 300⟩, ⟨"", 0⟩, ⟨"", 0⟩, ⟨"", 0⟩] : List Player),
        (∀ c ∈ p.name.data, c ≠ ',') ∧ p.bestReactionTime ≤ LONG_MAX)
    ∧ loadEntries MAX_PLAYERS (saveLines [⟨"Alice", 300⟩, ⟨"", 0⟩, ⟨"", 0⟩, ⟨"", 0⟩])
        = [⟨"Alice", 300⟩, ⟨"", 0⟩, ⟨"", 0⟩, ⟨"", 0⟩] :=
  ⟨by decide, by decide,
    leaderboard_save_load_roundtrip [⟨"Alice", 300⟩, ⟨"", 0⟩, ⟨"", 0⟩, ⟨"", 0⟩]
      (by decide) (by decide)⟩

end ReflexRush
